import Mathlib

/-
Verification of src/demos/zustand/zustand.ts: a minimal observable state
container (createStore / setState / getState / subscribe) plus the selector
memoization bridge (useSyncExternalStoreWithSelector's memoizedSelector).

Shallow embedding conventions:
- JS runtime values are `JSVal`; reference identity (Object.is) is modelled as
  structural equality of `JSVal`, with every object carrying an allocation id,
  so two structurally equal objects from distinct allocations compare unequal.
  NaN and negative zero are not modelled (no claim involves them).
- Exceptions from user functions are `Except JErr`; mutations performed before
  a throw are kept in the returned post-state, as in JS.
- The listener Set is a list of slots (`Option Nat`): `Set.delete` tombstones a
  slot, `Set.add` appends when absent, and `Set.forEach` walks slot indices of
  the live list, which reproduces ECMAScript iteration order semantics
  (entries added during iteration are visited, deleted ones are skipped).
- Listener bodies are modelled as finite lists of subscribe/unsubscribe
  actions keyed by listener id; the notification loop takes a fuel bound
  because a JS listener that removes and re-adds itself makes the real
  `forEach` loop forever.
-/

mutual
inductive JSVal where
  | vUndefined : JSVal
  | vNull : JSVal
  | vBool (b : Bool) : JSVal
  | vNum (n : Int) : JSVal
  | vStr (s : String) : JSVal
  | vObj (id : Nat) (fields : JSFields) : JSVal
  | vFun (id : Nat) : JSVal
deriving DecidableEq
inductive JSFields where
  | nil : JSFields
  | cons (key : String) (val : JSVal) (rest : JSFields) : JSFields
deriving DecidableEq
end

/-- Exceptions thrown by the modelled JS code: a TypeError from applying or
dereferencing `undefined`, or a user exception raised by a supplied function. -/
inductive JErr where
  | typeError : JErr
  | userError (msg : String) : JErr
deriving DecidableEq

instance : DecidableEq (Except JErr JSVal) := fun a b =>
  match a, b with
  | Except.ok x, Except.ok y => decidable_of_iff (x = y) (by simp)
  | Except.error x, Except.error y => decidable_of_iff (x = y) (by simp)
  | Except.ok _, Except.error _ => isFalse (by intro h; cases h)
  | Except.error _, Except.ok _ => isFalse (by intro h; cases h)

def JSFields.toList : JSFields → List (String × JSVal)
  | JSFields.nil => []
  | JSFields.cons k v rest => (k, v) :: rest.toList

def JSFields.ofList : List (String × JSVal) → JSFields
  | [] => JSFields.nil
  | (k, v) :: rest => JSFields.cons k v (ofList rest)

/-- The JS `typeof` operator on modelled values; note `typeof null` is
"object". -/
def typeofJS : JSVal → String
  | JSVal.vUndefined => "undefined"
  | JSVal.vNull => "object"
  | JSVal.vBool _ => "boolean"
  | JSVal.vNum _ => "number"
  | JSVal.vStr _ => "string"
  | JSVal.vObj _ _ => "object"
  | JSVal.vFun _ => "function"

/-- Own enumerable properties of a value, as consumed by `Object.assign`:
objects contribute their fields, everything else contributes none (the index
properties of primitive strings are not modelled; no claim merges a string
state). -/
def fieldsOf : JSVal → List (String × JSVal)
  | JSVal.vObj _ fs => fs.toList
  | _ => []

/-- First-match property lookup in a field list. -/
def lookupF : List (String × JSVal) → String → Option JSVal
  | [], _ => none
  | (k, v) :: rest, key => if k = key then some v else lookupF rest key

/-- Field list of `Object.assign(\x7b\x7d, a-owner, b-owner)`: the keys of `a`
in order with values overridden by `b` where present, then the keys of `b`
absent from `a`, in `b`'s order. -/
def mergeFields (a b : List (String × JSVal)) : List (String × JSVal) :=
  a.map (fun kv => match lookupF b kv.1 with | some v => (kv.1, v) | none => kv)
    ++ b.filter (fun kv => (lookupF a kv.1).isNone)

/-- Registry mutation a listener body may perform while being notified. -/
inductive LAct where
  | sub (l : Nat) : LAct
  | unsub (l : Nat) : LAct
deriving DecidableEq

/-- One `Set` mutation: `add` appends when the value is absent among live
slots, `delete` tombstones the slot holding the value. -/
def runAct (es : List (Option Nat)) (a : LAct) : List (Option Nat) :=
  match a with
  | LAct.sub l => if (some l) ∈ es then es else es ++ [some l]
  | LAct.unsub l => es.map (fun e => if e = some l then none else e)

def runActs (es : List (Option Nat)) (acts : List LAct) : List (Option Nat) :=
  acts.foldl runAct es

/-- A store: current state, the listener `Set` (live slots plus tombstones),
the log of listener invocations `(listener id, newState, prevState)`, and the
next fresh allocation id for objects created by merges. -/
structure Store where
  state : JSVal
  listeners : List (Option Nat)
  log : List (Nat × JSVal × JSVal)
  nextId : Nat
deriving DecidableEq

/-- Live listener ids from slot index `i` onward, in insertion order. -/
def liveFrom (i : Nat) (es : List (Option Nat)) : List Nat :=
  (es.drop i).filterMap id

/-- The `listeners.forEach((fn) => fn(state, prevState))` loop of `setState`:
walks slot indices of the live, possibly mutating registry; each invocation is
logged and then the listener's registry actions run.  `fuel` bounds the number
of visited slots. -/
def forEachNotify (beh : Nat → List LAct) : Nat → Nat → Store → JSVal → JSVal → Store
  | 0, _, st, _, _ => st
  | Nat.succ fuel, i, st, n, p =>
    if h : i < st.listeners.length then
      match st.listeners.get ⟨i, h⟩ with
      | none => forEachNotify beh fuel (i + 1) st n p
      | some l =>
        forEachNotify beh fuel (i + 1)
          { st with listeners := runActs st.listeners (beh l),
                    log := st.log ++ [(l, n, p)] } n p
    else st

/-- Resolution of `typeof partial === 'function' ? partial(state) : partial`. -/
def resolveNext (partialOrFn : Sum JSVal (JSVal → JSVal)) (s : JSVal) : JSVal :=
  match partialOrFn with
  | Sum.inl v => v
  | Sum.inr f => f s

/-- `setState(partial, replace)` from the source: resolve the next value; if it
is `Object.is`-identical to the current state do nothing; otherwise compute
`replace ?? typeof nextState !== 'object' ? nextState :
Object.assign(\x7b\x7d, state, nextState)` and notify the listeners. -/
def setState (beh : Nat → List LAct) (fuel : Nat)
    (partialOrFn : Sum JSVal (JSVal → JSVal)) (replace : Option Bool)
    (st : Store) : Store :=
  let nextState := resolveNext partialOrFn st.state
  if st.state = nextState then st
  else
    let prevState := st.state
    let repl : Bool :=
      match replace with
      | some b => b
      | none => typeofJS nextState != "object"
    let newState :=
      if repl then nextState
      else JSVal.vObj st.nextId
        (JSFields.ofList (mergeFields (fieldsOf st.state) (fieldsOf nextState)))
    let nid := if repl then st.nextId else st.nextId + 1
    forEachNotify beh fuel 0 { st with state := newState, nextId := nid }
      newState prevState

def getState (st : Store) : JSVal := st.state

/-- `subscribe(listener)`: `listeners.add(listener)`. -/
def subscribe (l : Nat) (st : Store) : Store :=
  { st with listeners := runAct st.listeners (LAct.sub l) }

/-- The closure returned by `subscribe`: `() => listeners.delete(listener)`. -/
def unsubscribe (l : Nat) (st : Store) : Store :=
  { st with listeners := runAct st.listeners (LAct.unsub l) }

/-- One call the initializer may make while `createState(setState, getState,
api)` runs: a `subscribe` or a `setState`. -/
inductive InitCmd where
  | sub (l : Nat) : InitCmd
  | setSt (p : Sum JSVal (JSVal → JSVal)) (r : Option Bool) : InitCmd

/-- The store as it exists when the initializer starts running: `let state` is
still the JS `undefined`, no listeners, nothing notified. -/
def store0 : Store := { state := JSVal.vUndefined, listeners := [], log := [], nextId := 0 }

def runInit (beh : Nat → List LAct) (fuel : Nat) (cmds : List InitCmd) : Store :=
  cmds.foldl
    (fun st c =>
      match c with
      | InitCmd.sub l => subscribe l st
      | InitCmd.setSt p r => setState beh fuel p r st)
    store0

/-- `createStore(createState)`: run the initializer's calls against the
pre-initialization store, then assign its return value directly to `state`
(no identity check, no merge, no notification). -/
def createStore (beh : Nat → List LAct) (fuel : Nat)
    (cmds : List InitCmd) (ret : JSVal) : Store :=
  { runInit beh fuel cmds with state := ret }

/-- The memoization cell of `memoizedSelector`: `hasMemo` plus the
`memoizedSnapshot` / `memoizedSelection` variables, which are the JS
`undefined` until first assigned. -/
structure Memo where
  hasMemo : Bool
  memoizedSnapshot : JSVal
  memoizedSelection : JSVal
deriving DecidableEq

def memo0 : Memo :=
  { hasMemo := false, memoizedSnapshot := JSVal.vUndefined,
    memoizedSelection := JSVal.vUndefined }

/-- Runtime value of the `inst` binding: the `Instance` union of the source
(`\x7bhasValue, value\x7d` or `null`), or the JS `undefined` when the ref cell
was never initialized. -/
inductive InstVal where
  | undef : InstVal
  | null : InstVal
  | record (hasValue : Bool) (value : JSVal) : InstVal
deriving DecidableEq

/-- Modelled from the spec: the external rendering primitive's ref cell
(`useRef`, supplied by the host renderer, not under src/).  Per the host
contract, `useRef` called with no argument yields a cell whose `current`
starts as the JS `undefined` value. -/
def useRefNoArgCurrent : InstVal := InstVal.undef

/-- The `instRef.current === null` initialization branch of
`useSyncExternalStoreWithSelector`: returns the new `current` and the local
`inst`. -/
def resolveInst (cur : InstVal) : InstVal × InstVal :=
  match cur with
  | InstVal.null => (InstVal.record false JSVal.vNull, InstVal.record false JSVal.vNull)
  | c => (c, c)

/-- Application of the possibly-undefined `selector`: calling `undefined`
throws a TypeError without invoking any user code; a present selector is
invoked (counted) and may itself throw.  The second component counts selector
invocations. -/
def applySelector (selector : Option (JSVal → Except JErr JSVal)) (x : JSVal) :
    Except JErr JSVal × Nat :=
  match selector with
  | none => (Except.error JErr.typeError, 0)
  | some f => (f x, 1)

/-- Outcome of one `memoizedSelector(nextSnapshot)` call: the returned value or
thrown exception, the memo cell afterwards (mutations made before a throw are
kept), and how many times `selector` was invoked during the call. -/
structure MemoResult where
  result : Except JErr JSVal
  memo : Memo
  calls : Nat
deriving DecidableEq

/-- `memoizedSelector` from the source, line by line.  First call: `hasMemo`
and `memoizedSnapshot` are assigned before `selector` runs; with `isEqual`
supplied, `inst!.hasValue` is read (a TypeError when `inst` is `undefined` or
`null`), and a held committed value is returned instead of the fresh one.
Later calls: identical snapshot returns the previous selection; otherwise the
selector runs, and when `isEqual` accepts, the previous selection is returned
without touching `memoizedSnapshot`. -/
def memoizedSelector (selector : Option (JSVal → Except JErr JSVal))
    (isEqual : Option (JSVal → JSVal → Except JErr Bool))
    (inst : InstVal) (m : Memo) (nextSnapshot : JSVal) : MemoResult :=
  let prevSnapshot := m.memoizedSnapshot
  let prevSelection := m.memoizedSelection
  if !m.hasMemo then
    let m1 : Memo :=
      { hasMemo := true, memoizedSnapshot := nextSnapshot,
        memoizedSelection := m.memoizedSelection }
    match applySelector selector nextSnapshot with
    | (Except.error e, c) => ⟨Except.error e, m1, c⟩
    | (Except.ok nextSelection, c) =>
      match isEqual with
      | some _ =>
        match inst with
        | InstVal.record hasValue value =>
          if hasValue then
            ⟨Except.ok value, { m1 with memoizedSelection := value }, c⟩
          else
            ⟨Except.ok nextSelection, { m1 with memoizedSelection := nextSelection }, c⟩
        | _ => ⟨Except.error JErr.typeError, m1, c⟩
      | none =>
        ⟨Except.ok nextSelection, { m1 with memoizedSelection := nextSelection }, c⟩
  else
    if prevSnapshot = nextSnapshot then
      ⟨Except.ok prevSelection, m, 0⟩
    else
      match applySelector selector nextSnapshot with
      | (Except.error e, c) => ⟨Except.error e, m, c⟩
      | (Except.ok nextSelection, c) =>
        match isEqual with
        | some eq =>
          match eq prevSelection nextSelection with
          | Except.error e => ⟨Except.error e, m, c⟩
          | Except.ok true => ⟨Except.ok prevSelection, m, c⟩
          | Except.ok false =>
            ⟨Except.ok nextSelection,
             { m with memoizedSnapshot := nextSnapshot,
                      memoizedSelection := nextSelection }, c⟩
        | none =>
          ⟨Except.ok nextSelection,
           { m with memoizedSnapshot := nextSnapshot,
                    memoizedSelection := nextSelection }, c⟩

/-- The first `getSelection()` of a fresh subscription of `useStore`, as wired
by `createImpl`'s `useBoundStore`: the ref cell starts uninitialized, the memo
is fresh, and the snapshot is `api.getState()`. -/
def useStoreFirstRead (st : Store) (selector : Option (JSVal → Except JErr JSVal))
    (equalityFn : Option (JSVal → JSVal → Except JErr Bool)) : MemoResult :=
  memoizedSelector selector equalityFn (resolveInst useRefNoArgCurrent).2 memo0
    (getState st)

/- Concrete fixtures used by witnesses and counterexamples. -/

def behNone : Nat → List LAct := fun _ => []

def behSub2 : Nat → List LAct := fun l => if l = 1 then [LAct.sub 2] else []

def stObjAB : Store :=
  { state := JSVal.vObj 0 (JSFields.ofList [("a", JSVal.vNum 1), ("b", JSVal.vNum 2)]),
    listeners := [], log := [], nextId := 1 }

def stListener1 : Store :=
  { state := JSVal.vNum 0, listeners := [some 1], log := [], nextId := 0 }

def stListener3 : Store :=
  { state := JSVal.vNum 0, listeners := [some 3], log := [], nextId := 0 }

def selConst0 : Option (JSVal → Except JErr JSVal) :=
  some (fun _ => Except.ok (JSVal.vNum 0))

def eqAlwaysTrue : Option (JSVal → JSVal → Except JErr Bool) :=
  some (fun _ _ => Except.ok true)

def selThrow : Option (JSVal → Except JErr JSVal) :=
  some (fun _ => Except.error (JErr.userError "boom"))

def selIdentity : Option (JSVal → Except JErr JSVal) :=
  some (fun s => Except.ok s)

def memoSnap1 : Memo :=
  { hasMemo := true, memoizedSnapshot := JSVal.vNum 1,
    memoizedSelection := JSVal.vNum 0 }

/- Helper lemmas. -/

theorem toList_ofList (l : List (String × JSVal)) : (JSFields.ofList l).toList = l := by
  induction l with
  | nil => rfl
  | cons kv rest ih =>
    rcases kv with ⟨k, v⟩
    simp [JSFields.ofList, JSFields.toList, ih]

theorem lookupF_append (xs ys : List (String × JSVal)) (k : String) :
    lookupF (xs ++ ys) k
      = match lookupF xs k with
        | some v => some v
        | none => lookupF ys k := by
  induction xs with
  | nil => rfl
  | cons kv rest ih =>
    rcases kv with ⟨k1, v1⟩
    by_cases h : k1 = k
    · simp [lookupF, h]
    · simp [lookupF, h, ih]

theorem lookupF_mapOverride (a b : List (String × JSVal)) (k : String) :
    lookupF
        (a.map (fun kv =>
          match lookupF b kv.1 with | some v => (kv.1, v) | none => kv)) k
      = match lookupF a k with
        | none => none
        | some v =>
          match lookupF b k with
          | some w => some w
          | none => some v := by
  induction a with
  | nil => rfl
  | cons kv rest ih =>
    rcases kv with ⟨k1, v1⟩
    by_cases h : k1 = k
    · subst h
      cases hb : lookupF b k1 <;> simp [lookupF, hb]
    · cases hb : lookupF b k1 <;> simp [lookupF, hb, h, ih]

theorem lookupF_filter (p : String × JSVal → Bool) (b : List (String × JSVal))
    (k : String) (hp : ∀ kv ∈ b, kv.1 = k → p kv = true) :
    lookupF (b.filter p) k = lookupF b k := by
  induction b with
  | nil => rfl
  | cons kv rest ih =>
    have ihr := ih (fun kv hm hk => hp kv (List.mem_cons_of_mem _ hm) hk)
    by_cases hk : kv.1 = k
    · have hpk : p kv = true := hp kv (List.mem_cons_self _ _) hk
      rcases kv with ⟨k1, v1⟩
      simp [List.filter, hpk, lookupF, hk, ihr]
    · rcases hpkv : p kv with _ | _
      · rcases kv with ⟨k1, v1⟩
        simp only [List.filter, hpkv]
        rw [ihr]
        simp [lookupF, hk]
      · rcases kv with ⟨k1, v1⟩
        simp only [List.filter, hpkv]
        simp only [lookupF, hk, if_neg hk]
        exact ihr

theorem lookupF_mergeFields (a b : List (String × JSVal)) (k : String) :
    lookupF (mergeFields a b) k
      = match lookupF b k with
        | some w => some w
        | none => lookupF a k := by
  unfold mergeFields
  rw [lookupF_append, lookupF_mapOverride]
  cases ha : lookupF a k with
  | some v => cases hb : lookupF b k <;> simp
  | none =>
    have hfil : lookupF (b.filter fun kv => (lookupF a kv.1).isNone) k = lookupF b k := by
      refine lookupF_filter _ b k ?_
      intro kv _ hk
      rw [hk, ha]
      rfl
    rw [hfil]
    cases hb : lookupF b k <;> simp

theorem forEachNotify_succ_none (beh : Nat → List LAct) (fuel i : Nat) (st : Store)
    (n p : JSVal) (h : i < st.listeners.length)
    (hget : st.listeners.get ⟨i, h⟩ = none) :
    forEachNotify beh (fuel + 1) i st n p = forEachNotify beh fuel (i + 1) st n p := by
  rw [forEachNotify, dif_pos h, hget]

theorem forEachNotify_succ_some (beh : Nat → List LAct) (fuel i : Nat) (st : Store)
    (n p : JSVal) (l : Nat) (h : i < st.listeners.length)
    (hget : st.listeners.get ⟨i, h⟩ = some l) :
    forEachNotify beh (fuel + 1) i st n p
      = forEachNotify beh fuel (i + 1)
          { st with listeners := runActs st.listeners (beh l),
                    log := st.log ++ [(l, n, p)] } n p := by
  rw [forEachNotify, dif_pos h, hget]

theorem forEachNotify_state (beh : Nat → List LAct) :
    ∀ (fuel i : Nat) (st : Store) (n p : JSVal),
      (forEachNotify beh fuel i st n p).state = st.state := by
  intro fuel
  induction fuel with
  | zero => intro i st n p; rfl
  | succ fuel ih =>
    intro i st n p
    by_cases h : i < st.listeners.length
    · cases hget : st.listeners.get ⟨i, h⟩ with
      | none =>
        rw [forEachNotify_succ_none beh fuel i st n p h hget]
        exact ih (i + 1) st n p
      | some l =>
        rw [forEachNotify_succ_some beh fuel i st n p l h hget]
        exact ih (i + 1) _ n p
    · rw [forEachNotify, dif_neg h]

theorem forEachNotify_ge (beh : Nat → List LAct) (fuel i : Nat) (st : Store)
    (n p : JSVal) (h : st.listeners.length ≤ i) :
    forEachNotify beh fuel i st n p = st := by
  cases fuel with
  | zero => rfl
  | succ fuel => rw [forEachNotify, dif_neg (by omega)]

theorem liveFrom_of_ge (i : Nat) (es : List (Option Nat)) (h : es.length ≤ i) :
    liveFrom i es = [] := by
  unfold liveFrom
  rw [List.drop_eq_nil_of_le h]
  rfl

theorem liveFrom_succ (i : Nat) (es : List (Option Nat)) (h : i < es.length) :
    liveFrom i es
      = match es.get ⟨i, h⟩ with
        | none => liveFrom (i + 1) es
        | some l => l :: liveFrom (i + 1) es := by
  unfold liveFrom
  rw [List.drop_eq_getElem_cons h, List.filterMap_cons]
  rw [← List.get_eq_getElem es ⟨i, h⟩]
  cases hget : es.get ⟨i, h⟩ <;> simp

theorem forEachNotify_log_benign (beh : Nat → List LAct) (hbeh : ∀ x, beh x = []) :
    ∀ (fuel i : Nat) (st : Store) (n p : JSVal), st.listeners.length - i ≤ fuel →
      forEachNotify beh fuel i st n p
        = { st with log := st.log ++ (liveFrom i st.listeners).map (fun l => (l, n, p)) } := by
  intro fuel
  induction fuel with
  | zero =>
    intro i st n p hf
    have hlen : st.listeners.length ≤ i := by omega
    rw [liveFrom_of_ge i _ hlen, forEachNotify_ge beh 0 i st n p hlen]
    simp
  | succ fuel ih =>
    intro i st n p hf
    by_cases h : i < st.listeners.length
    · rw [liveFrom_succ i st.listeners h]
      cases hget : st.listeners.get ⟨i, h⟩ with
      | none =>
        rw [forEachNotify_succ_none beh fuel i st n p h hget]
        exact ih (i + 1) st n p (by omega)
      | some l =>
        rw [forEachNotify_succ_some beh fuel i st n p l h hget, hbeh l]
        have hrun : runActs st.listeners [] = st.listeners := rfl
        rw [hrun]
        rw [ih (i + 1) _ n p (by simp only []; omega)]
        simp
    · have hlen : st.listeners.length ≤ i := by omega
      rw [liveFrom_of_ge i _ hlen, forEachNotify_ge beh (fuel + 1) i st n p hlen]
      simp

theorem not_mem_runAct (l : Nat) (a : LAct) (es : List (Option Nat))
    (hes : some l ∉ es) (ha : a ≠ LAct.sub l) : some l ∉ runAct es a := by
  cases a with
  | sub l1 =>
    unfold runAct
    by_cases hmem : (some l1 : Option Nat) ∈ es
    · simp only [if_pos hmem]
      exact hes
    · simp only [if_neg hmem]
      intro hm
      rcases List.mem_append.mp hm with hm1 | hm1
      · exact hes hm1
      · have hl : l = l1 := by simpa using hm1
        exact ha (by rw [hl])
  | unsub l1 =>
    unfold runAct
    intro hmem
    rcases List.mem_map.mp hmem with ⟨e, he, heq⟩
    by_cases h1 : e = some l1
    · rw [if_pos h1] at heq
      cases heq
    · rw [if_neg h1] at heq
      exact hes (heq ▸ he)

theorem not_mem_runActs (l : Nat) (acts : List LAct) (es : List (Option Nat))
    (hes : some l ∉ es) (hacts : LAct.sub l ∉ acts) : some l ∉ runActs es acts := by
  induction acts generalizing es with
  | nil => exact hes
  | cons a rest ih =>
    have ha : a ≠ LAct.sub l := fun h => hacts (h ▸ List.mem_cons_self _ _)
    have hrest : LAct.sub l ∉ rest := fun h => hacts (List.mem_cons_of_mem _ h)
    exact ih (runAct es a) (not_mem_runAct l a es hes ha) hrest

theorem forEachNotify_filter_not_mem (beh : Nat → List LAct) (l : Nat)
    (hbeh : ∀ x, LAct.sub l ∉ beh x) :
    ∀ (fuel i : Nat) (st : Store) (n p : JSVal), some l ∉ st.listeners →
      ((forEachNotify beh fuel i st n p).log.filter (fun e => e.1 == l))
        = st.log.filter (fun e => e.1 == l) := by
  intro fuel
  induction fuel with
  | zero => intro i st n p hmem; rfl
  | succ fuel ih =>
    intro i st n p hmem
    by_cases h : i < st.listeners.length
    · cases hget : st.listeners.get ⟨i, h⟩ with
      | none =>
        rw [forEachNotify_succ_none beh fuel i st n p h hget]
        exact ih (i + 1) st n p hmem
      | some l1 =>
        have hl1mem : some l1 ∈ st.listeners := hget ▸ List.get_mem _ _ _
        have hne : l1 ≠ l := fun hEq => hmem (hEq ▸ hl1mem)
        rw [forEachNotify_succ_some beh fuel i st n p l1 h hget]
        rw [ih (i + 1) _ n p (not_mem_runActs l (beh l1) st.listeners hmem (hbeh l1))]
        rw [List.filter_append]
        simp [hne]
    · rw [forEachNotify, dif_neg h]

/-- Claim C8: a write whose resolved next value is `Object.is`-identical to
the current state is a no-op: the state field is not reassigned and no
listener is notified. -/
theorem setState_identical_noop (beh : Nat → List LAct) (fuel : Nat)
    (partialOrFn : Sum JSVal (JSVal → JSVal)) (replace : Option Bool) (st : Store)
    (h : resolveNext partialOrFn st.state = st.state) :
    setState beh fuel partialOrFn replace st = st := by
  simp [setState, h]

theorem setState_identical_noop_witness :
    setState behNone 0 (Sum.inl (JSVal.vNum 3)) none
        { state := JSVal.vNum 3, listeners := [], log := [], nextId := 0 }
      = { state := JSVal.vNum 3, listeners := [], log := [], nextId := 0 } :=
  setState_identical_noop behNone 0 (Sum.inl (JSVal.vNum 3)) none _ rfl

/-- Claim C9: a non-first getSelection whose snapshot is identical to the
memoized snapshot returns the memoized selection without invoking the
selector; hence two consecutive calls on an unchanged snapshot invoke the
selector exactly once and return the same reference both times. -/
theorem getSelection_snapshot_fastpath :
    (∀ (selector : Option (JSVal → Except JErr JSVal))
       (isEqual : Option (JSVal → JSVal → Except JErr Bool))
       (inst : InstVal) (m : Memo),
       m.hasMemo = true →
       memoizedSelector selector isEqual inst m m.memoizedSnapshot
         = ⟨Except.ok m.memoizedSelection, m, 0⟩) ∧
    (∀ (f : JSVal → Except JErr JSVal) (inst : InstVal) (snap v : JSVal),
       f snap = Except.ok v →
       memoizedSelector (some f) none inst memo0 snap
         = ⟨Except.ok v,
            { hasMemo := true, memoizedSnapshot := snap, memoizedSelection := v }, 1⟩ ∧
       memoizedSelector (some f) none inst
           { hasMemo := true, memoizedSnapshot := snap, memoizedSelection := v } snap
         = ⟨Except.ok v,
            { hasMemo := true, memoizedSnapshot := snap, memoizedSelection := v }, 0⟩) := by
  constructor
  · intro selector isEqual inst m hm
    unfold memoizedSelector
    rw [hm]
    simp
  · intro f inst snap v hf
    constructor
    · unfold memoizedSelector
      simp [memo0, applySelector, hf]
    · unfold memoizedSelector
      simp

theorem getSelection_snapshot_fastpath_witness :
    memoizedSelector selIdentity none InstVal.undef memo0 (JSVal.vNum 2)
      = ⟨Except.ok (JSVal.vNum 2),
         { hasMemo := true, memoizedSnapshot := JSVal.vNum 2,
           memoizedSelection := JSVal.vNum 2 }, 1⟩ :=
  (getSelection_snapshot_fastpath.2 (fun s => Except.ok s) InstVal.undef
    (JSVal.vNum 2) (JSVal.vNum 2) rfl).1

/-- Claim C6 (code defect): the bound store callable invoked with no arguments
passes an undefined selector through `useStore` to the memoizer, so the first
read throws a TypeError instead of returning the whole current state. -/
theorem useBoundStore_no_args_typeError (st : Store) :
    (useStoreFirstRead st none none).result = Except.error JErr.typeError := rfl

/-- Claim C2 (code defect): `useRef()` leaves `instRef.current` as the JS
undefined value and the source only initializes on `=== null`, so the
instance record is never created; with isEqual supplied, the first
getSelection dereferences undefined and throws a TypeError instead of reusing
a previously committed selection. -/
theorem instRef_never_initialized_typeError :
    (resolveInst useRefNoArgCurrent).1 = InstVal.undef ∧
    (resolveInst useRefNoArgCurrent).2 = InstVal.undef ∧
    (memoizedSelector selIdentity eqAlwaysTrue (resolveInst useRefNoArgCurrent).2
        memo0 (JSVal.vNum 3)).result = Except.error JErr.typeError :=
  ⟨rfl, rfl, rfl⟩

/-- Claim C3 (code defect): when isEqual accepts the recomputed selection the
source returns the previous selection without updating memoizedSnapshot, so
an immediately following call with the same snapshot misses the identity fast
path and invokes the selector again. -/
theorem equal_selection_stale_snapshot :
    (memoizedSelector selConst0 eqAlwaysTrue InstVal.undef memoSnap1 (JSVal.vNum 2)).result
        = Except.ok (JSVal.vNum 0) ∧
    (memoizedSelector selConst0 eqAlwaysTrue InstVal.undef memoSnap1 (JSVal.vNum 2)).memo
        = memoSnap1 ∧
    (memoizedSelector selConst0 eqAlwaysTrue InstVal.undef memoSnap1 (JSVal.vNum 2)).calls
        = 1 ∧
    (memoizedSelector selConst0 eqAlwaysTrue InstVal.undef
        (memoizedSelector selConst0 eqAlwaysTrue InstVal.undef memoSnap1
          (JSVal.vNum 2)).memo (JSVal.vNum 2)).calls = 1 :=
  ⟨rfl, rfl, rfl, rfl⟩

/-- Claim C4 counterexample: on the very first call after (re)creation, a
throwing selector does not leave the memo fields at their pre-call values:
the exception propagates but hasMemo and memoizedSnapshot were already
mutated. -/
theorem first_call_error_mutates_memo_cex :
    (memoizedSelector selThrow none InstVal.undef memo0 (JSVal.vNum 1)).result
        = Except.error (JErr.userError "boom") ∧
    (memoizedSelector selThrow none InstVal.undef memo0 (JSVal.vNum 1)).memo ≠ memo0 := by
  exact ⟨rfl, by decide⟩

/-- Claim C4 (amended): an exception from the selector or from isEqual
propagates synchronously; on non-first calls every memo field keeps its
pre-call value, while on the first call hasMemo has been set and
memoizedSnapshot assigned to the new snapshot before the selector ran, with
memoizedSelection alone keeping its pre-call value. -/
theorem memoizedSelector_error_state :
    (∀ (selector : Option (JSVal → Except JErr JSVal))
       (isEqual : Option (JSVal → JSVal → Except JErr Bool))
       (inst : InstVal) (m : Memo) (snap : JSVal) (e : JErr),
       m.hasMemo = true →
       (memoizedSelector selector isEqual inst m snap).result = Except.error e →
       (memoizedSelector selector isEqual inst m snap).memo = m) ∧
    (∀ (selector : Option (JSVal → Except JErr JSVal))
       (isEqual : Option (JSVal → JSVal → Except JErr Bool))
       (inst : InstVal) (m : Memo) (snap : JSVal) (e : JErr),
       m.hasMemo = false →
       (memoizedSelector selector isEqual inst m snap).result = Except.error e →
       (memoizedSelector selector isEqual inst m snap).memo
         = { hasMemo := true, memoizedSnapshot := snap,
             memoizedSelection := m.memoizedSelection }) := by
  constructor
  · intro selector isEqual inst m snap e hm hr
    unfold memoizedSelector at hr ⊢
    rw [hm] at hr ⊢
    by_cases hsnap : m.memoizedSnapshot = snap
    · simp [hsnap] at hr
    · rcases happ : applySelector selector snap with ⟨r1, c1⟩
      simp only [Bool.not_true, Bool.false_eq_true, if_false, if_neg hsnap, happ]
        at hr ⊢
      cases r1 with
      | error e1 => rfl
      | ok ns =>
        cases isEqual with
        | none => simp at hr
        | some eqf =>
          cases heqf : eqf m.memoizedSelection ns with
          | error e2 => simp [heqf]
          | ok b =>
            cases b <;> simp [heqf] at hr
  · intro selector isEqual inst m snap e hm hr
    rcases happ : applySelector selector snap with ⟨r1, c1⟩
    unfold memoizedSelector at hr ⊢
    rw [hm] at hr ⊢
    simp only [Bool.not_false, if_true, happ] at hr ⊢
    cases r1 with
    | error e1 => rfl
    | ok ns =>
      cases isEqual with
      | none => simp at hr
      | some eqf =>
        cases inst with
        | undef => rfl
        | null => rfl
        | record hasValue value =>
          cases hasValue <;> simp at hr

theorem memoizedSelector_error_state_witness :
    (memoizedSelector selThrow none InstVal.undef
        { hasMemo := true, memoizedSnapshot := JSVal.vNum 1,
          memoizedSelection := JSVal.vNum 0 } (JSVal.vNum 2)).memo
      = { hasMemo := true, memoizedSnapshot := JSVal.vNum 1,
          memoizedSelection := JSVal.vNum 0 } :=
  memoizedSelector_error_state.1 selThrow none InstVal.undef
    { hasMemo := true, memoizedSnapshot := JSVal.vNum 1,
      memoizedSelection := JSVal.vNum 0 } (JSVal.vNum 2)
    (JErr.userError "boom") rfl rfl

/-- Claim C1 counterexample: with the current state an object, writing null
(whose typeof is "object") with `replace` absent, or writing a number with
`replace` explicitly false, does not make the new state the next value:
`Object.assign` contributes no keys from null or a number and yields a fresh
copy of the current state instead. -/
theorem setState_replace_claim_cex :
    (setState behNone 0 (Sum.inl JSVal.vNull) none stObjAB).state ≠ JSVal.vNull ∧
    (setState behNone 0 (Sum.inl (JSVal.vNum 7)) (some false) stObjAB).state
      ≠ JSVal.vNum 7 := by
  exact ⟨by decide, by decide⟩

/-- Claim C1 (amended): for a state-changing write of a plain value, the new
state is the next value exactly when replace is explicitly true, or replace is
absent and the next value is not of JS object runtime type (null counts as
object type, functions do not); otherwise — including replace explicitly
false, and null or primitive next values with replace absent — the new state
is a freshly allocated object whose properties are the shallow merge in which
every key of the next value overrides the corresponding key of the current
state and every other key of the current state is preserved. -/
theorem setState_replace_or_merge (beh : Nat → List LAct) (fuel : Nat)
    (st : Store) (v : JSVal) (replace : Option Bool) (hne : st.state ≠ v) :
    ((replace = some true ∨ (replace = none ∧ typeofJS v ≠ "object")) →
       (setState beh fuel (Sum.inl v) replace st).state = v) ∧
    ((replace = some false ∨ (replace = none ∧ typeofJS v = "object")) →
       typeofJS (setState beh fuel (Sum.inl v) replace st).state = "object" ∧
       ∀ k, lookupF (fieldsOf (setState beh fuel (Sum.inl v) replace st).state) k
         = match lookupF (fieldsOf v) k with
           | some w => some w
           | none => lookupF (fieldsOf st.state) k) := by
  have hcond : ¬ (st.state = resolveNext (Sum.inl v) st.state) := hne
  constructor
  · rintro (rfl | ⟨rfl, hty⟩)
    · simp only [setState, if_neg hcond]
      rw [forEachNotify_state]
      simp [resolveNext]
    · simp only [setState, if_neg hcond]
      rw [forEachNotify_state]
      simp [resolveNext, bne_iff_ne, hty]
  · rintro (rfl | ⟨rfl, hty⟩)
    · simp only [setState, if_neg hcond]
      rw [forEachNotify_state]
      constructor
      · rfl
      · intro k
        show lookupF ((JSFields.ofList (mergeFields (fieldsOf st.state)
          (fieldsOf (resolveNext (Sum.inl v) st.state)))).toList) k = _
        rw [toList_ofList, lookupF_mergeFields]
        rfl
    · simp only [setState, if_neg hcond]
      rw [forEachNotify_state]
      have hrepl : (typeofJS (resolveNext (Sum.inl v) st.state) != "object") = false := by
        simp [resolveNext, hty]
      rw [hrepl]
      constructor
      · rfl
      · intro k
        show lookupF ((JSFields.ofList (mergeFields (fieldsOf st.state)
          (fieldsOf (resolveNext (Sum.inl v) st.state)))).toList) k = _
        rw [toList_ofList, lookupF_mergeFields]
        rfl

theorem setState_replace_or_merge_witness :
    typeofJS (setState behNone 0 (Sum.inl (JSVal.vObj 5
        (JSFields.ofList [("b", JSVal.vNum 9)]))) none stObjAB).state = "object" :=
  ((setState_replace_or_merge behNone 0 stObjAB
      (JSVal.vObj 5 (JSFields.ofList [("b", JSVal.vNum 9)])) none (by decide)).2
    (Or.inr ⟨rfl, rfl⟩)).1

/-- Claim C5 counterexample: during a state-changing write over registry
[listener 1], listener 1 subscribes listener 2 while being notified, and
listener 2 is then invoked for that very write — the pass is not over a
stable snapshot of the registry taken at its start. -/
theorem subscriber_invoked_same_pass_cex :
    (setState behSub2 4 (Sum.inl (JSVal.vNum 5)) none stListener1).log
      = [(1, JSVal.vNum 5, JSVal.vNum 0), (2, JSVal.vNum 5, JSVal.vNum 0)] := by
  decide

/-- Claim C5 (amended): the notification pass iterates the live registry, not
a snapshot: a listener absent from the registry (for instance right after
unsubscribing mid-pass) that no listener re-subscribes receives no further
invocations in the pass, while a listener subscribed during the pass is
invoked for the very write that caused its subscription once iteration
reaches its appended entry. -/
theorem notification_live_registry :
    (∀ (beh : Nat → List LAct) (l : Nat), (∀ x, LAct.sub l ∉ beh x) →
       ∀ (fuel i : Nat) (st : Store) (n p : JSVal), some l ∉ st.listeners →
         ((forEachNotify beh fuel i st n p).log.filter (fun e => e.1 == l))
           = st.log.filter (fun e => e.1 == l)) ∧
    ((setState behSub2 4 (Sum.inl (JSVal.vNum 5)) none stListener1).log.filter
        (fun e => e.1 == 2) = [(2, JSVal.vNum 5, JSVal.vNum 0)]) := by
  constructor
  · intro beh l hbeh fuel i st n p hmem
    exact forEachNotify_filter_not_mem beh l hbeh fuel i st n p hmem
  · decide

theorem notification_live_registry_witness :
    ((forEachNotify behNone 2 0 stListener1 (JSVal.vNum 9) (JSVal.vNum 0)).log.filter
        (fun e => e.1 == 7))
      = stListener1.log.filter (fun e => e.1 == 7) :=
  notification_live_registry.1 behNone 7
    (fun x => List.not_mem_nil _) 2 0 stListener1 (JSVal.vNum 9) (JSVal.vNum 0)
    (by decide)

/-- Claim C7: while a listener is registered (exactly one live slot holds it),
every state-changing write invokes it exactly once with (newState,
previousState); registering the same reference again is a no-op on the
registry, a second call of the returned unsubscribe closure is a no-op, and a
listener absent from the registry is never notified. -/
theorem subscribe_notify_contract :
    (∀ (beh : Nat → List LAct) (fuel : Nat) (st : Store) (v : JSVal)
       (replace : Option Bool) (l : Nat),
       (∀ x, beh x = []) →
       st.listeners.length ≤ fuel →
       (liveFrom 0 st.listeners).filter (fun x => x == l) = [l] →
       st.state ≠ v →
       ((setState beh fuel (Sum.inl v) replace st).log.filter (fun e => e.1 == l))
         = st.log.filter (fun e => e.1 == l)
           ++ [(l, (setState beh fuel (Sum.inl v) replace st).state, st.state)]) ∧
    (∀ (st : Store) (l : Nat), subscribe l (subscribe l st) = subscribe l st) ∧
    (∀ (st : Store) (l : Nat), unsubscribe l (unsubscribe l st) = unsubscribe l st) ∧
    (∀ (beh : Nat → List LAct) (fuel : Nat) (st : Store) (v : JSVal)
       (replace : Option Bool) (l : Nat),
       (∀ x, beh x = []) → some l ∉ st.listeners →
       ((setState beh fuel (Sum.inl v) replace st).log.filter (fun e => e.1 == l))
         = st.log.filter (fun e => e.1 == l)) := by
  refine ⟨?_, ?_, ?_, ?_⟩
  · intro beh fuel st v replace l hbeh hfuel hone hne
    have hcond : ¬ (st.state = resolveNext (Sum.inl v) st.state) := hne
    have hpay : ∀ (xs : List Nat) (n p : JSVal),
        ((xs.map (fun x => (x, n, p))).filter (fun e => e.1 == l))
          = (xs.filter (fun x => x == l)).map (fun x => (x, n, p)) := by
      intro xs n p
      rw [List.filter_map]
      rfl
    have key : ∀ (n : JSVal) (nid : Nat),
        ((forEachNotify beh fuel 0 { st with state := n, nextId := nid }
            n st.state).log.filter (fun e => e.1 == l))
          = st.log.filter (fun e => e.1 == l)
            ++ [(l, (forEachNotify beh fuel 0 { st with state := n, nextId := nid }
                  n st.state).state, st.state)] := by
      intro n nid
      rw [forEachNotify_log_benign beh hbeh fuel 0 _ _ _ (by simpa using hfuel)]
      simp only [List.filter_append, hpay, hone, List.map_cons, List.map_nil]
    simp only [setState, if_neg hcond]
    exact key _ _
  · intro st l
    simp only [subscribe, runAct]
    by_cases h : (some l : Option Nat) ∈ st.listeners
    · simp [h]
    · have h2 : (some l : Option Nat) ∈ st.listeners ++ [some l] := by simp
      simp [h, h2]
  · intro st l
    simp only [unsubscribe, runAct]
    rw [List.map_map]
    have hfun : ((fun (e : Option Nat) => if e = some l then none else e)
          ∘ fun e => if e = some l then none else e)
        = fun e => if e = some l then none else e := by
      funext e
      by_cases h : e = some l <;> simp [Function.comp, h]
    rw [hfun]
  · intro beh fuel st v replace l hbeh hmem
    by_cases hcond : st.state = resolveNext (Sum.inl v) st.state
    · simp only [setState, if_pos hcond]
    · simp only [setState, if_neg hcond]
      exact forEachNotify_filter_not_mem beh l
        (fun x => by rw [hbeh x]; exact List.not_mem_nil _) fuel 0 _ _ _ hmem

theorem subscribe_notify_contract_witness :
    ((setState behNone 1 (Sum.inl (JSVal.vNum 1)) none stListener3).log.filter
        (fun e => e.1 == 3))
      = stListener3.log.filter (fun e => e.1 == 3)
        ++ [(3, (setState behNone 1 (Sum.inl (JSVal.vNum 1)) none stListener3).state,
             stListener3.state)] :=
  subscribe_notify_contract.1 behNone 1 stListener3 (JSVal.vNum 1) none 3
    (fun _ => rfl) (by decide) (by decide) (by decide)

/-- Claim C10: after `createStore`, `getState` returns exactly the
initializer's return value; `setState` calls the initializer makes during
construction take effect and notify subscribed listeners at the time of the
call, with the pre-initialization undefined state as previousState for the
first such write, but the direct final assignment of the return value
overwrites their result and itself notifies no listener. -/
theorem createStore_returns_initializer_value :
    (∀ (beh : Nat → List LAct) (fuel : Nat) (cmds : List InitCmd) (ret : JSVal),
       getState (createStore beh fuel cmds ret) = ret) ∧
    (∀ (beh : Nat → List LAct) (fuel : Nat) (cmds : List InitCmd) (ret : JSVal),
       (createStore beh fuel cmds ret).log = (runInit beh fuel cmds).log) ∧
    (∀ (beh : Nat → List LAct) (fuel : Nat) (l : Nat) (v : JSVal)
       (replace : Option Bool) (ret : JSVal),
       beh l = [] → 1 ≤ fuel → v ≠ JSVal.vUndefined →
       (createStore beh fuel [InitCmd.sub l, InitCmd.setSt (Sum.inl v) replace] ret).log
         = [(l, (runInit beh fuel [InitCmd.sub l,
              InitCmd.setSt (Sum.inl v) replace]).state, JSVal.vUndefined)]) := by
  refine ⟨?_, ?_, ?_⟩
  · intro beh fuel cmds ret
    rfl
  · intro beh fuel cmds ret
    rfl
  · intro beh fuel l v replace ret hbl hfuel hv
    obtain ⟨f, rfl⟩ : ∃ f, fuel = f + 1 := ⟨fuel - 1, by omega⟩
    have hneq : ¬ ((JSVal.vUndefined : JSVal)
        = resolveNext (Sum.inl v) JSVal.vUndefined) := fun h => hv h.symm
    have h0 : runInit beh (f + 1) [InitCmd.sub l, InitCmd.setSt (Sum.inl v) replace]
        = setState beh (f + 1) (Sum.inl v) replace
            { state := JSVal.vUndefined, listeners := [some l], log := [], nextId := 0 } := rfl
    have hlog : (createStore beh (f + 1)
        [InitCmd.sub l, InitCmd.setSt (Sum.inl v) replace] ret).log
        = (runInit beh (f + 1) [InitCmd.sub l, InitCmd.setSt (Sum.inl v) replace]).log := rfl
    have key : ∀ (n : JSVal) (nid : Nat),
        (forEachNotify beh (f + 1) 0
            { state := n, listeners := [some l], log := [], nextId := nid }
            n JSVal.vUndefined).log
          = [(l, (forEachNotify beh (f + 1) 0
              { state := n, listeners := [some l], log := [], nextId := nid }
              n JSVal.vUndefined).state, JSVal.vUndefined)] := by
      intro n nid
      rw [forEachNotify_succ_some beh f 0
          { state := n, listeners := [some l], log := [], nextId := nid }
          n JSVal.vUndefined l (by simp) rfl, hbl]
      rw [forEachNotify_ge beh f 1 _ _ _ (by simp [runActs])]
      simp
    rw [hlog, h0]
    simp only [setState, if_neg hneq]
    exact key _ _

theorem createStore_returns_initializer_value_witness :
    (createStore behNone 1 [InitCmd.sub 4, InitCmd.setSt (Sum.inl (JSVal.vNum 2)) none]
        (JSVal.vNum 9)).log
      = [(4, (runInit behNone 1 [InitCmd.sub 4,
           InitCmd.setSt (Sum.inl (JSVal.vNum 2)) none]).state, JSVal.vUndefined)] :=
  createStore_returns_initializer_value.2.2 behNone 1 4 (JSVal.vNum 2) none
    (JSVal.vNum 9) rfl (by decide) (by decide)
